import Mathlib

/-!
Verification of the TIVA-C Port driver (Port.c, Port.h, Port_Cfg.h, Port_PBcfg.c).

The driver is embedded shallowly: memory-mapped GPIO registers are modelled
symbolically as a map from (port number, register name) to a natural number
value, every register write additionally appends an event to a trace (used for
ordering properties), and every call to the external diagnostic sink
Det_ReportError appends a 4-tuple to an error log.  The two static variables
Port_Status and Port_ConfigPtr are threaded explicitly through each operation
as a PortGlobals record.  Machine integers are modelled as Nat; the registers
are 32 bits wide, so the masked operations truncate at 2 to the power 32 where
the C code would.
-/

/-! Constants from Port.h, Port_Cfg.h and Std_Types.h. -/

def PORT_VENDOR_ID : Nat := 1000
def PORT_MODULE_ID : Nat := 124
def PORT_INSTANCE_ID : Nat := 0
def PORT_SW_MAJOR_VERSION : Nat := 1
def PORT_SW_MINOR_VERSION : Nat := 0
def PORT_SW_PATCH_VERSION : Nat := 0

def PORT_INITIALIZED : Nat := 1
def PORT_NOT_INITIALIZED : Nat := 0

def PORT_INIT_SID : Nat := 0x00
def PORT_SET_PIN_DIRECTION_SID : Nat := 0x01
def PORT_REFRESH_PIN_DIRECTION_SID : Nat := 0x02
def PORT_GET_VERSION_INFO_SID : Nat := 0x03
def PORT_SET_PIN_MODE_SID : Nat := 0x04

def PORT_E_PARAM_PIN : Nat := 0x0A
def PORT_E_DIRECTION_UNCHANGEABLE : Nat := 0x0B
def PORT_E_PARAM_CONFIG : Nat := 0x0C
def PORT_E_PARAM_INVALID_MODE : Nat := 0x0D
def PORT_E_MODE_UNCHANGEABLE : Nat := 0x0E
def PORT_E_UNINIT : Nat := 0x0F
def PORT_E_PARAM_POINTER : Nat := 0x10

def PORT_PIN_IN : Nat := 0
def PORT_PIN_OUT : Nat := 1

def RESISTOR_OFF : Nat := 0
def PULL_UP : Nat := 1
def PULL_DOWN : Nat := 2

/-- PIN_MODE_DIO from Port_Cfg.h (value 0), the digital I/O mode selector. -/
def PIN_MODE_DIO_VAL : Nat := 0

/-- STD_HIGH from Std_Types.h (standard AUTOSAR value 1). -/
def STD_HIGH : Nat := 1
/-- STD_LOW from Std_Types.h (standard AUTOSAR value 0). -/
def STD_LOW : Nat := 0

/-- The hardware unlock key written to the GPIO lock register. -/
def UNLOCK_KEY : Nat := 0x4C4F434B

/-! Bit manipulation.  Modelled from the spec: common_macros.h is not in the
repository; SET_BIT and CLEAR_BIT are the standard one-bit read-modify-write
macros the spec describes as setting or clearing a single named bit of a
32-bit register. -/

/-- All 32 register bits set: the width mask for a uint32 register. -/
def mask32 : Nat := 2 ^ 32 - 1

/-- SET_BIT(REG, b): REG gets REG OR shifted one. -/
def setBit (v n : Nat) : Nat := v ||| (1 <<< n)

/-- CLEAR_BIT(REG, b): REG gets REG AND the 32-bit complement of shifted one. -/
def clearBit (v n : Nat) : Nat := v &&& (mask32 ^^^ ((1 <<< n) &&& mask32))

/-- The PCTL update in Port.c: REG gets REG AND the 32-bit complement of
0x0F shifted by four times the pin number. -/
def clearNibble (v n : Nat) : Nat :=
  v &&& (mask32 ^^^ ((0x0F <<< (n * 4)) &&& mask32))

/-! Register blocks.  Modelled from the spec: Port_Regs.h is not in the
repository; each of the six GPIO port blocks exposes the registers listed in
section 6 of the spec (direction, data, pull-up, pull-down, analog select,
alternate function, control/selector, digital enable, lock, commit), addressed
in Port.c by fixed offsets from the port base address.  We model a register by
its symbolic name rather than its numeric offset. -/

inductive Reg where
  | DIR | DATA | PUR | PDR | AFSEL | PCTL | AMSEL | DEN | LOCK | CR
  deriving DecidableEq

/-- One register-write event, recorded in program order. -/
inductive Ev where
  | rcgc (p : Nat)
  | lock (p v : Nat)
  | commit (p c : Nat)
  | dir (p c : Nat) (b : Bool)
  | data (p c : Nat) (b : Bool)
  | pur (p c : Nat) (b : Bool)
  | pdr (p c : Nat) (b : Bool)
  | amsel (p c : Nat)
  | afsel (p c : Nat)
  | pctl (p c : Nat)
  | den (p c : Nat)
  deriving DecidableEq

/-- The machine state: the shared clock-gate register, the per-port GPIO
registers, the ordered trace of register writes, and the log of 4-tuples
(module id, instance id, service id, error code) sent to Det_ReportError. -/
structure MachState where
  rcgc : Nat
  regs : Nat → Reg → Nat
  trace : List Ev
  det : List (Nat × Nat × Nat × Nat)

/-- A single GPIO register write: store the new value and record the event. -/
def updReg (st : MachState) (p : Nat) (r : Reg) (v : Nat) (ev : Ev) : MachState :=
  { st with
    regs := fun q s => if q = p ∧ s = r then v else st.regs q s
    trace := st.trace ++ [ev] }

/-- SYSCTL_RCGCGPIO_REG gets itself OR one shifted by the port number
(Port.c line 102). -/
def rcgcWrite (st : MachState) (p : Nat) : MachState :=
  { st with rcgc := st.rcgc ||| (1 <<< p), trace := st.trace ++ [Ev.rcgc p] }

/-- Det_ReportError from the Det module: appends the reported tuple to the
diagnostic log and has no other effect. -/
def Det_ReportError (st : MachState) (m i s e : Nat) : MachState :=
  { st with det := st.det ++ [(m, i, s, e)] }

/-- Write the unlock key to the GPIO lock register (whole-register store). -/
def lockWrite (st : MachState) (p : Nat) : MachState :=
  updReg st p Reg.LOCK UNLOCK_KEY (Ev.lock p UNLOCK_KEY)

/-- SET_BIT on the commit register. -/
def commitSet (st : MachState) (p c : Nat) : MachState :=
  updReg st p Reg.CR (setBit (st.regs p Reg.CR) c) (Ev.commit p c)

/-- SET_BIT on the direction register. -/
def dirSet (st : MachState) (p c : Nat) : MachState :=
  updReg st p Reg.DIR (setBit (st.regs p Reg.DIR) c) (Ev.dir p c true)

/-- CLEAR_BIT on the direction register. -/
def dirClear (st : MachState) (p c : Nat) : MachState :=
  updReg st p Reg.DIR (clearBit (st.regs p Reg.DIR) c) (Ev.dir p c false)

/-- SET_BIT on the data register. -/
def dataSet (st : MachState) (p c : Nat) : MachState :=
  updReg st p Reg.DATA (setBit (st.regs p Reg.DATA) c) (Ev.data p c true)

/-- CLEAR_BIT on the data register. -/
def dataClear (st : MachState) (p c : Nat) : MachState :=
  updReg st p Reg.DATA (clearBit (st.regs p Reg.DATA) c) (Ev.data p c false)

/-- SET_BIT on the pull-up register. -/
def purSet (st : MachState) (p c : Nat) : MachState :=
  updReg st p Reg.PUR (setBit (st.regs p Reg.PUR) c) (Ev.pur p c true)

/-- CLEAR_BIT on the pull-up register. -/
def purClear (st : MachState) (p c : Nat) : MachState :=
  updReg st p Reg.PUR (clearBit (st.regs p Reg.PUR) c) (Ev.pur p c false)

/-- SET_BIT on the pull-down register. -/
def pdrSet (st : MachState) (p c : Nat) : MachState :=
  updReg st p Reg.PDR (setBit (st.regs p Reg.PDR) c) (Ev.pdr p c true)

/-- CLEAR_BIT on the pull-down register. -/
def pdrClear (st : MachState) (p c : Nat) : MachState :=
  updReg st p Reg.PDR (clearBit (st.regs p Reg.PDR) c) (Ev.pdr p c false)

/-- CLEAR_BIT on the analog-mode-select register. -/
def amselClear (st : MachState) (p c : Nat) : MachState :=
  updReg st p Reg.AMSEL (clearBit (st.regs p Reg.AMSEL) c) (Ev.amsel p c)

/-- CLEAR_BIT on the alternate-function register. -/
def afselClear (st : MachState) (p c : Nat) : MachState :=
  updReg st p Reg.AFSEL (clearBit (st.regs p Reg.AFSEL) c) (Ev.afsel p c)

/-- Clear the 4-bit PCTL nibble of the pin. -/
def pctlClear (st : MachState) (p c : Nat) : MachState :=
  updReg st p Reg.PCTL (clearNibble (st.regs p Reg.PCTL) c) (Ev.pctl p c)

/-- SET_BIT on the digital-enable register. -/
def denSet (st : MachState) (p c : Nat) : MachState :=
  updReg st p Reg.DEN (setBit (st.regs p Reg.DEN) c) (Ev.den p c)

/-! Configuration data (Port.h). -/

/-- Port_ConfigChannel from Port.h.  The C enum and uint8 fields are modelled
as Nat so that out-of-range values remain representable; the two boolean
flags are Bool. -/
structure Port_ConfigChannel where
  Port_Num : Nat
  Ch_Num : Nat
  Mode : Nat
  Direction : Nat
  InitialValue : Nat
  Direction_Changeable : Bool
  Mode_Changeable : Bool
  Resistor : Nat
  deriving DecidableEq

/-- Port_ConfigType from Port.h: the fixed-length array of pin entries; the
build-time array length PORT_CONFIGURED_CHANNELS is the list length. -/
structure Port_ConfigType where
  Pins : List Port_ConfigChannel
  deriving DecidableEq

/-- Default entry used only to make list indexing total below a proven
bound check (the C code never reads it). -/
def defaultChannel : Port_ConfigChannel :=
  { Port_Num := 0, Ch_Num := 0, Mode := 0, Direction := 0, InitialValue := 0
    Direction_Changeable := false, Mode_Changeable := false, Resistor := 0 }

/-- The two static variables of Port.c: Port_Status and Port_ConfigPtr. -/
structure PortGlobals where
  Port_Status : Nat
  Port_ConfigPtr : Option Port_ConfigType
  deriving DecidableEq

/-- Dereference the stored configuration pointer.  The C code only
dereferences it behind the initialization guard, after Port_Init has stored a
non-null pointer; the default empty table makes the model total (its length 0
makes every bound check fail, so it is never read past). -/
def getCfg (g : PortGlobals) : Port_ConfigType :=
  g.Port_ConfigPtr.getD { Pins := [] }

/-- The unlock-and-commit sequence for the two hardware-locked pins PD7 and
PF0 (Port.c lines 127 to 135, repeated verbatim at lines 285 to 292,
367 to 373 and 493 to 499): write the unlock key to the lock register, then
SET_BIT the commit register at the pin. -/
def Port_unlockCommit (p c : Nat) (st : MachState) : MachState :=
  if (p = 3 ∧ c = 7) ∨ (p = 5 ∧ c = 0) then commitSet (lockWrite st p) p c
  else st

/-- The direction block of Port_Init (Port.c lines 138 to 173): an OUT entry
sets the direction bit and drives the data bit from InitialValue; any other
direction value clears the direction bit and programs the pull resistor
(set the requested one then clear the other; the final else does nothing). -/
def Port_Init_direction (e : Port_ConfigChannel) (st : MachState) : MachState :=
  let port_num := e.Port_Num
  let pin_num := e.Ch_Num
  if e.Direction = PORT_PIN_OUT then
    let st := dirSet st port_num pin_num
    if e.InitialValue = STD_HIGH then dataSet st port_num pin_num
    else dataClear st port_num pin_num
  else
    let st := dirClear st port_num pin_num
    if e.Resistor = PULL_UP then
      pdrClear (purSet st port_num pin_num) port_num pin_num
    else if e.Resistor = PULL_DOWN then
      purClear (pdrSet st port_num pin_num) port_num pin_num
    else
      st

/-- The digital I/O case of the mode switch, identical in Port_Init
(Port.c lines 176 to 188) and Port_SetPinMode (lines 504 to 516): clear the
analog select bit, clear the alternate-function bit, clear the PCTL nibble,
set the digital-enable bit. -/
def Port_modeDio (p c : Nat) (st : MachState) : MachState :=
  denSet (pctlClear (afselClear (amselClear st p c) p c) p c) p c

/-- The per-entry configuration body of Port_Init after the clock-gate block
and the port switch (Port.c lines 127 to 200): unlock and commit for PD7/PF0,
program the direction (output level or pull resistor), then the mode switch:
digital I/O programs the four mode registers, any other mode reports
PORT_E_PARAM_INVALID_MODE. -/
def Port_Init_configurePin (e : Port_ConfigChannel) (st : MachState) : MachState :=
  let st := Port_unlockCommit e.Port_Num e.Ch_Num st
  let st := Port_Init_direction e st
  if e.Mode = PIN_MODE_DIO_VAL then
    Port_modeDio e.Port_Num e.Ch_Num st
  else
    Det_ReportError st PORT_MODULE_ID PORT_INSTANCE_ID PORT_INIT_SID
      PORT_E_PARAM_INVALID_MODE

/-- One loop iteration of Port_Init (Port.c lines 88 to 202).  The state is
paired with the local portsEnabledMask (a uint8, so the stored bit is
truncated modulo 256 while the membership test is done at int width, exactly
as in the C).  The clock-gate block runs before the port-number switch; an
unrecognized port number reports PORT_E_PARAM_PIN and the iteration ends
(continue). -/
def Port_Init_entryBody (e : Port_ConfigChannel) (sm : MachState × Nat) :
    MachState × Nat :=
  let port_num := e.Port_Num
  let st1 := if sm.2 &&& (1 <<< port_num) = 0 then rcgcWrite sm.1 port_num else sm.1
  let mask1 := if sm.2 &&& (1 <<< port_num) = 0
    then sm.2 ||| ((1 <<< port_num) % 256) else sm.2
  if port_num < 6 then
    (Port_Init_configurePin e st1, mask1)
  else
    (Det_ReportError st1 PORT_MODULE_ID PORT_INSTANCE_ID PORT_INIT_SID
      PORT_E_PARAM_PIN, mask1)

/-- The full loop of Port_Init over the configured channels. -/
def Port_Init_pass : List Port_ConfigChannel → MachState × Nat → MachState × Nat
  | [], sm => sm
  | e :: es, sm => Port_Init_pass es (Port_Init_entryBody e sm)

/-- The two assignments performed on entering Port_Init with a non-null
pointer (Port.c lines 77 and 80): store the configuration pointer and mark
the driver not initialized. -/
def Port_Init_enter (g : PortGlobals) (c : Port_ConfigType) : PortGlobals :=
  { g with Port_ConfigPtr := some c, Port_Status := PORT_NOT_INITIALIZED }

/-- Port_Init (Port.c lines 61 to 206).  A null pointer reports
PORT_E_PARAM_CONFIG and returns; otherwise the pointer is latched, the status
dropped to PORT_NOT_INITIALIZED, the loop runs over every entry with the
ports-enabled mask starting at 0, and finally the status is promoted to
PORT_INITIALIZED. -/
def Port_Init (ConfigPtr : Option Port_ConfigType) (g : PortGlobals)
    (st : MachState) : PortGlobals × MachState :=
  match ConfigPtr with
  | none =>
      (g, Det_ReportError st PORT_MODULE_ID PORT_INSTANCE_ID PORT_INIT_SID
        PORT_E_PARAM_CONFIG)
  | some c =>
      let g1 := Port_Init_enter g c
      let sm := Port_Init_pass c.Pins (st, 0)
      ({ g1 with Port_Status := PORT_INITIALIZED }, sm.1)

/-- Port_setPinDirection (Port.c lines 221 to 307).  Guards in order: driver
initialized, pin index below PORT_CONFIGURED_CHANNELS, direction changeable;
then the port switch (unrecognized ports report PORT_E_PARAM_PIN and return),
the unlock sequence for PD7/PF0, and the direction bit write. -/
def Port_setPinDirection (g : PortGlobals) (Pin Direction : Nat)
    (st : MachState) : PortGlobals × MachState :=
  if g.Port_Status = PORT_NOT_INITIALIZED then
    (g, Det_ReportError st PORT_MODULE_ID PORT_INSTANCE_ID
      PORT_SET_PIN_DIRECTION_SID PORT_E_UNINIT)
  else if (getCfg g).Pins.length ≤ Pin then
    (g, Det_ReportError st PORT_MODULE_ID PORT_INSTANCE_ID
      PORT_SET_PIN_DIRECTION_SID PORT_E_PARAM_PIN)
  else if ((getCfg g).Pins.getD Pin defaultChannel).Direction_Changeable = false then
    (g, Det_ReportError st PORT_MODULE_ID PORT_INSTANCE_ID
      PORT_SET_PIN_DIRECTION_SID PORT_E_DIRECTION_UNCHANGEABLE)
  else
    let e := (getCfg g).Pins.getD Pin defaultChannel
    let port_num := e.Port_Num
    let pin_num := e.Ch_Num
    if port_num < 6 then
      let st := Port_unlockCommit port_num pin_num st
      if Direction = PORT_PIN_OUT then (g, dirSet st port_num pin_num)
      else (g, dirClear st port_num pin_num)
    else
      (g, Det_ReportError st PORT_MODULE_ID PORT_INSTANCE_ID
        PORT_SET_PIN_DIRECTION_SID PORT_E_PARAM_PIN)

/-- One loop iteration of Port_RefreshPortDirection (Port.c lines 336 to
386): entries whose direction is changeable are skipped entirely; otherwise
the port switch (unrecognized ports report PORT_E_PARAM_PIN and continue),
the unlock sequence for PD7/PF0, and the re-application of the configured
direction bit. -/
def Port_Refresh_entryBody (e : Port_ConfigChannel) (st : MachState) : MachState :=
  if e.Direction_Changeable = false then
    let port_num := e.Port_Num
    let pin_num := e.Ch_Num
    if port_num < 6 then
      let st := Port_unlockCommit port_num pin_num st
      if e.Direction = PORT_PIN_OUT then dirSet st port_num pin_num
      else dirClear st port_num pin_num
    else
      Det_ReportError st PORT_MODULE_ID PORT_INSTANCE_ID
        PORT_REFRESH_PIN_DIRECTION_SID PORT_E_PARAM_PIN
  else st

/-- The full loop of Port_RefreshPortDirection over the configured channels. -/
def Port_Refresh_pass : List Port_ConfigChannel → MachState → MachState
  | [], st => st
  | e :: es, st => Port_Refresh_pass es (Port_Refresh_entryBody e st)

/-- Port_RefreshPortDirection (Port.c lines 320 to 387): after the
initialization guard, loops over every configured channel. -/
def Port_RefreshPortDirection (g : PortGlobals) (st : MachState) :
    PortGlobals × MachState :=
  if g.Port_Status = PORT_NOT_INITIALIZED then
    (g, Det_ReportError st PORT_MODULE_ID PORT_INSTANCE_ID
      PORT_REFRESH_PIN_DIRECTION_SID PORT_E_UNINIT)
  else
    (g, Port_Refresh_pass (getCfg g).Pins st)

/-- Port_SetPinMode (Port.c lines 433 to 533).  Guards in order: driver
initialized, pin index in range, mode changeable; then the port switch, the
unlock sequence for PD7/PF0, and the mode switch: digital I/O programs the
four mode registers, any other mode reports PORT_E_PARAM_INVALID_MODE and
returns. -/
def Port_SetPinMode (g : PortGlobals) (Pin Mode : Nat) (st : MachState) :
    PortGlobals × MachState :=
  if g.Port_Status = PORT_NOT_INITIALIZED then
    (g, Det_ReportError st PORT_MODULE_ID PORT_INSTANCE_ID
      PORT_SET_PIN_MODE_SID PORT_E_UNINIT)
  else if (getCfg g).Pins.length ≤ Pin then
    (g, Det_ReportError st PORT_MODULE_ID PORT_INSTANCE_ID
      PORT_SET_PIN_MODE_SID PORT_E_PARAM_PIN)
  else if ((getCfg g).Pins.getD Pin defaultChannel).Mode_Changeable = false then
    (g, Det_ReportError st PORT_MODULE_ID PORT_INSTANCE_ID
      PORT_SET_PIN_MODE_SID PORT_E_MODE_UNCHANGEABLE)
  else
    let e := (getCfg g).Pins.getD Pin defaultChannel
    let port_num := e.Port_Num
    let pin_num := e.Ch_Num
    if port_num < 6 then
      let st := Port_unlockCommit port_num pin_num st
      if Mode = PIN_MODE_DIO_VAL then
        (g, Port_modeDio port_num pin_num st)
      else
        (g, Det_ReportError st PORT_MODULE_ID PORT_INSTANCE_ID
          PORT_SET_PIN_MODE_SID PORT_E_PARAM_INVALID_MODE)
    else
      (g, Det_ReportError st PORT_MODULE_ID PORT_INSTANCE_ID
        PORT_SET_PIN_MODE_SID PORT_E_PARAM_PIN)

/-- Std_VersionInfoType from Std_Types.h. -/
structure Std_VersionInfoType where
  vendorID : Nat
  moduleID : Nat
  sw_major_version : Nat
  sw_minor_version : Nat
  sw_patch_version : Nat
  deriving DecidableEq

/-- Port_GetVersionInfo (Port.c lines 399 to 419): a null output pointer
reports PORT_E_PARAM_POINTER; otherwise the compile-time version record is
written into the caller slot. -/
def Port_GetVersionInfo (g : PortGlobals) (versioninfo : Option Std_VersionInfoType)
    (st : MachState) : PortGlobals × MachState × Option Std_VersionInfoType :=
  match versioninfo with
  | none =>
      (g, Det_ReportError st PORT_MODULE_ID PORT_INSTANCE_ID
        PORT_GET_VERSION_INFO_SID PORT_E_PARAM_POINTER, none)
  | some _ =>
      (g, st, some
        { vendorID := PORT_VENDOR_ID, moduleID := PORT_MODULE_ID
          sw_major_version := PORT_SW_MAJOR_VERSION
          sw_minor_version := PORT_SW_MINOR_VERSION
          sw_patch_version := PORT_SW_PATCH_VERSION })

/-! Projection lemmas for the state primitives. -/

theorem updReg_regs (st : MachState) (p : Nat) (r : Reg) (v : Nat) (ev : Ev)
    (q : Nat) (s : Reg) :
    (updReg st p r v ev).regs q s = if q = p ∧ s = r then v else st.regs q s := rfl

theorem updReg_trace (st : MachState) (p : Nat) (r : Reg) (v : Nat) (ev : Ev) :
    (updReg st p r v ev).trace = st.trace ++ [ev] := rfl

theorem updReg_det (st : MachState) (p : Nat) (r : Reg) (v : Nat) (ev : Ev) :
    (updReg st p r v ev).det = st.det := rfl

theorem updReg_rcgc (st : MachState) (p : Nat) (r : Reg) (v : Nat) (ev : Ev) :
    (updReg st p r v ev).rcgc = st.rcgc := rfl

theorem rcgcWrite_regs (st : MachState) (p q : Nat) (s : Reg) :
    (rcgcWrite st p).regs q s = st.regs q s := rfl

theorem rcgcWrite_trace (st : MachState) (p : Nat) :
    (rcgcWrite st p).trace = st.trace ++ [Ev.rcgc p] := rfl

theorem rcgcWrite_det (st : MachState) (p : Nat) :
    (rcgcWrite st p).det = st.det := rfl

theorem Det_ReportError_regs (st : MachState) (m i s e : Nat) (q : Nat) (r : Reg) :
    (Det_ReportError st m i s e).regs q r = st.regs q r := rfl

theorem Det_ReportError_trace (st : MachState) (m i s e : Nat) :
    (Det_ReportError st m i s e).trace = st.trace := rfl

theorem Det_ReportError_det (st : MachState) (m i s e : Nat) :
    (Det_ReportError st m i s e).det = st.det ++ [(m, i, s, e)] := rfl

/-! Bit-level lemmas about setBit and clearBit. -/

theorem testBit_setBit_self (v n : Nat) : (setBit v n).testBit n = true := by
  simp [setBit, Nat.testBit_lor, Nat.one_shiftLeft, Nat.testBit_two_pow_self]

theorem testBit_setBit_of_ne (v : Nat) {n m : Nat} (h : m ≠ n) :
    (setBit v n).testBit m = v.testBit m := by
  simp [setBit, Nat.testBit_lor, Nat.one_shiftLeft,
    Nat.testBit_two_pow_of_ne (Ne.symm h)]

theorem testBit_mask32 (m : Nat) : mask32.testBit m = decide (m < 32) :=
  Nat.testBit_two_pow_sub_one 32 m

theorem testBit_clearBit_self (v : Nat) {n : Nat} (h : n < 32) :
    (clearBit v n).testBit n = false := by
  simp [clearBit, Nat.testBit_land, Nat.testBit_xor, Nat.one_shiftLeft,
    testBit_mask32, Nat.testBit_two_pow_self, h]

theorem testBit_clearBit_of_ne (v : Nat) {n m : Nat} (hm : m < 32) (h : m ≠ n) :
    (clearBit v n).testBit m = v.testBit m := by
  simp [clearBit, Nat.testBit_land, Nat.testBit_xor, Nat.one_shiftLeft,
    testBit_mask32, hm, Nat.testBit_two_pow_of_ne (Ne.symm h)]

/-! Concrete fixtures used by counterexamples and witnesses. -/

/-- The all-zero machine state used as an example starting point. -/
def st0 : MachState := { rcgc := 0, regs := fun _ _ => 0, trace := [], det := [] }

/-- Globals of an engine that was never initialized. -/
def gNI : PortGlobals :=
  { Port_Status := PORT_NOT_INITIALIZED, Port_ConfigPtr := none }

/-- A one-entry table whose pin is the hardware-locked PF0 with changeable
mode. -/
def cfgPF0 : Port_ConfigType :=
  { Pins := [{ Port_Num := 5, Ch_Num := 0, Mode := 0, Direction := 0
               InitialValue := 0, Direction_Changeable := false
               Mode_Changeable := true, Resistor := 0 }] }

/-- Globals of an engine initialized with cfgPF0. -/
def gPF0 : PortGlobals :=
  { Port_Status := PORT_INITIALIZED, Port_ConfigPtr := some cfgPF0 }

/-- A one-entry table whose portIndex 6 is out of range. -/
def cfgBadPort : Port_ConfigType :=
  { Pins := [{ Port_Num := 6, Ch_Num := 0, Mode := 0, Direction := 0
               InitialValue := 0, Direction_Changeable := false
               Mode_Changeable := false, Resistor := 0 }] }

/-- A one-entry table whose channelIndex 9 is out of range, direction
changeable. -/
def cfgBadCh : Port_ConfigType :=
  { Pins := [{ Port_Num := 0, Ch_Num := 9, Mode := 0, Direction := 0
               InitialValue := 0, Direction_Changeable := true
               Mode_Changeable := true, Resistor := 0 }] }

/-- Globals of an engine initialized with cfgBadCh. -/
def gBadCh : PortGlobals :=
  { Port_Status := PORT_INITIALIZED, Port_ConfigPtr := some cfgBadCh }

/-- A one-entry table: input pin with resistor OFF on port A channel 0. -/
def cfgOff : Port_ConfigType :=
  { Pins := [{ Port_Num := 0, Ch_Num := 0, Mode := 0, Direction := 0
               InitialValue := 0, Direction_Changeable := false
               Mode_Changeable := false, Resistor := 0 }] }

/-- A starting state in which every pull-up register reads 1 (bit 0 set). -/
def stPur1 : MachState :=
  { rcgc := 0, regs := fun _ r => if r = Reg.PUR then 1 else 0
    trace := [], det := [] }

/-- C8: Port_Init called with a null table reference reports InvalidConfig
(PORT_E_PARAM_CONFIG) to the diagnostic sink, performs zero register writes
(registers, clock gate and write trace all unchanged), and leaves both static
variables, the status and the stored configuration reference, exactly as they
were. -/
theorem claim_C8 (g : PortGlobals) (st : MachState) :
    (Port_Init none g st).1 = g ∧
    (Port_Init none g st).2.regs = st.regs ∧
    (Port_Init none g st).2.rcgc = st.rcgc ∧
    (Port_Init none g st).2.trace = st.trace ∧
    (Port_Init none g st).2.det = st.det ++
      [(PORT_MODULE_ID, PORT_INSTANCE_ID, PORT_INIT_SID, PORT_E_PARAM_CONFIG)] :=
  ⟨rfl, rfl, rfl, rfl, rfl⟩

/-- C7: on a non-null table, Port_Init first latches the pointer and drops the
status to PORT_NOT_INITIALIZED (Port_Init_enter), then runs the full pass, and
the returned status is PORT_INITIALIZED for every table, hence regardless of
how many entries were skipped with errors; the result is exactly the entered
globals promoted after the full pass. -/
theorem claim_C7 (g : PortGlobals) (c : Port_ConfigType) (st : MachState) :
    (Port_Init_enter g c).Port_Status = PORT_NOT_INITIALIZED ∧
    (Port_Init_enter g c).Port_ConfigPtr = some c ∧
    Port_Init (some c) g st =
      ({ Port_Init_enter g c with Port_Status := PORT_INITIALIZED },
        (Port_Init_pass c.Pins (st, 0)).1) ∧
    (Port_Init (some c) g st).1.Port_Status = PORT_INITIALIZED :=
  ⟨rfl, rfl, rfl, rfl⟩

/-- C10: Port_setPinDirection, Port_RefreshPortDirection, Port_SetPinMode and
Port_GetVersionInfo leave the process-wide globals (Port_Status and
Port_ConfigPtr) unchanged for every argument and every starting state. -/
theorem claim_C10 (g : PortGlobals) (st : MachState) :
    (∀ Pin Direction, (Port_setPinDirection g Pin Direction st).1 = g) ∧
    ((Port_RefreshPortDirection g st).1 = g) ∧
    (∀ Pin Mode, (Port_SetPinMode g Pin Mode st).1 = g) ∧
    (∀ v, (Port_GetVersionInfo g v st).1 = g) := by
  refine ⟨fun Pin Direction => ?_, ?_, fun Pin Mode => ?_, fun v => ?_⟩
  · simp only [Port_setPinDirection]
    split_ifs <;> rfl
  · simp only [Port_RefreshPortDirection]
    split_ifs <;> rfl
  · simp only [Port_SetPinMode]
    split_ifs <;> rfl
  · cases v <;> rfl

/-- C1 counterexample: with the engine initialized on a table whose single
entry is the hardware-locked PF0 pin with changeable mode, Port_SetPinMode
with the unsupported mode 1 does report PORT_E_PARAM_INVALID_MODE, but it
performs two register writes first: the lock register receives the unlock key
and the commit bit is set, contradicting the claim that no lock or commit
register is modified. -/
theorem claim_C1_cx :
    (Port_SetPinMode gPF0 0 1 st0).2.trace =
      [Ev.lock 5 UNLOCK_KEY, Ev.commit 5 0] ∧
    (Port_SetPinMode gPF0 0 1 st0).2.det =
      [(PORT_MODULE_ID, PORT_INSTANCE_ID, PORT_SET_PIN_MODE_SID,
        PORT_E_PARAM_INVALID_MODE)] ∧
    ¬ (Port_SetPinMode gPF0 0 1 st0).2.trace = st0.trace := by
  refine ⟨by decide, by decide, by decide⟩

/-- C2 counterexample: Port_Init on a table whose single entry has the
out-of-range portIndex 6 reports PORT_E_PARAM_PIN for it, yet the entry does
contribute a register write: the clock-gate register is written for port 6
(the write happens before the portIndex validation), contradicting the claim
that such an entry contributes no register writes whatsoever. -/
theorem claim_C2_cx :
    (Port_Init (some cfgBadPort) gNI st0).2.trace = [Ev.rcgc 6] ∧
    (Port_Init (some cfgBadPort) gNI st0).2.rcgc = 64 ∧
    (Port_Init (some cfgBadPort) gNI st0).2.det =
      [(PORT_MODULE_ID, PORT_INSTANCE_ID, PORT_INIT_SID, PORT_E_PARAM_PIN)] := by
  refine ⟨by decide, by decide, by decide⟩

/-- C3 counterexample: with the engine initialized on a table whose single
entry has channelIndex 9 (outside [0,7]) on the valid port 0, a direction
change request performs the direction-register write derived from that
channelIndex (bit 9) and reports no error at all: channelIndex is not
re-validated before the register access. -/
theorem claim_C3_cx :
    (Port_setPinDirection gBadCh 0 1 st0).2.trace = [Ev.dir 0 9 true] ∧
    (Port_setPinDirection gBadCh 0 1 st0).2.det = [] := by
  refine ⟨by decide, by decide⟩

/-- C4 counterexample: Port_Init on a table whose single entry is an input
pin with resistor OFF, started from a state in which the pull-up register of
its port reads 1, leaves the pull-up bit set (and the pull-down register
untouched): the OFF branch of the code does nothing, it does not clear the
two pull bits, though the direction bit is indeed cleared. -/
theorem claim_C4_cx :
    ((Port_Init (some cfgOff) gNI stPur1).2.regs 0 Reg.PUR).testBit 0 = true ∧
    ((Port_Init (some cfgOff) gNI stPur1).2.regs 0 Reg.DIR).testBit 0 = false := by
  refine ⟨by decide, by decide⟩

/-! Helper lemmas about the shared code fragments. -/

theorem getCfg_some {g : PortGlobals} {cfg : Port_ConfigType}
    (h : g.Port_ConfigPtr = some cfg) : getCfg g = cfg := by
  simp [getCfg, h]

theorem unlockCommit_regs_of_ne (p c q : Nat) (r : Reg) (st : MachState)
    (h1 : r ≠ Reg.LOCK) (h2 : r ≠ Reg.CR) :
    (Port_unlockCommit p c st).regs q r = st.regs q r := by
  unfold Port_unlockCommit
  split
  · simp [commitSet, lockWrite, updReg_regs, h1, h2]
  · rfl

theorem unlockCommit_trace (p c : Nat) (st : MachState) :
    (Port_unlockCommit p c st).trace = st.trace ++
      (if (p = 3 ∧ c = 7) ∨ (p = 5 ∧ c = 0)
        then [Ev.lock p UNLOCK_KEY, Ev.commit p c] else []) := by
  unfold Port_unlockCommit
  split
  · simp_all [commitSet, lockWrite, updReg_trace]
  · simp_all

theorem unlockCommit_det (p c : Nat) (st : MachState) :
    (Port_unlockCommit p c st).det = st.det := by
  unfold Port_unlockCommit
  split <;> rfl

theorem modeDio_regs (p c q : Nat) (r : Reg) (st : MachState)
    (h1 : r ≠ Reg.AMSEL) (h2 : r ≠ Reg.AFSEL) (h3 : r ≠ Reg.PCTL)
    (h4 : r ≠ Reg.DEN) :
    (Port_modeDio p c st).regs q r = st.regs q r := by
  simp [Port_modeDio, denSet, pctlClear, afselClear, amselClear, updReg_regs,
    h1, h2, h3, h4]

theorem modeDio_det (p c : Nat) (st : MachState) :
    (Port_modeDio p c st).det = st.det := rfl

/-- C1 (amended): with the engine initialized, an in-bounds pin with
changeable mode and a valid port, and a mode other than digital I/O,
Port_SetPinMode reports PORT_E_PARAM_INVALID_MODE and modifies no register
other than the lock and commit registers; its only writes are the unlock
key to the lock register and the commit bit, performed exactly when the pin
is PD7 or PF0 (for every other pin the trace grows by nothing). -/
theorem claim_C1 (g : PortGlobals) (cfg : Port_ConfigType) (st : MachState)
    (Pin Mode : Nat)
    (hs : g.Port_Status ≠ PORT_NOT_INITIALIZED)
    (hcfg : g.Port_ConfigPtr = some cfg)
    (hp : Pin < cfg.Pins.length)
    (hm : (cfg.Pins.getD Pin defaultChannel).Mode_Changeable = true)
    (hv : (cfg.Pins.getD Pin defaultChannel).Port_Num < 6)
    (hmode : Mode ≠ PIN_MODE_DIO_VAL) :
    (Port_SetPinMode g Pin Mode st).2.det = st.det ++
      [(PORT_MODULE_ID, PORT_INSTANCE_ID, PORT_SET_PIN_MODE_SID,
        PORT_E_PARAM_INVALID_MODE)] ∧
    (Port_SetPinMode g Pin Mode st).2.trace = st.trace ++
      (if ((cfg.Pins.getD Pin defaultChannel).Port_Num = 3 ∧
            (cfg.Pins.getD Pin defaultChannel).Ch_Num = 7) ∨
          ((cfg.Pins.getD Pin defaultChannel).Port_Num = 5 ∧
            (cfg.Pins.getD Pin defaultChannel).Ch_Num = 0)
        then [Ev.lock (cfg.Pins.getD Pin defaultChannel).Port_Num UNLOCK_KEY,
              Ev.commit (cfg.Pins.getD Pin defaultChannel).Port_Num
                (cfg.Pins.getD Pin defaultChannel).Ch_Num]
        else []) ∧
    (∀ q r, r ≠ Reg.LOCK → r ≠ Reg.CR →
      (Port_SetPinMode g Pin Mode st).2.regs q r = st.regs q r) := by
  have hg : getCfg g = cfg := getCfg_some hcfg
  have hlen : ¬ cfg.Pins.length ≤ Pin := by omega
  have hmc : ¬ (cfg.Pins.getD Pin defaultChannel).Mode_Changeable = false := by
    rw [hm]; simp
  simp only [Port_SetPinMode, hg, if_neg hs, if_neg hlen, if_neg hmc,
    if_pos hv, if_neg hmode]
  refine ⟨?_, ?_, fun q r h1 h2 => ?_⟩
  · rw [Det_ReportError_det, unlockCommit_det]
  · rw [Det_ReportError_trace, unlockCommit_trace]
  · rw [Det_ReportError_regs, unlockCommit_regs_of_ne _ _ _ _ _ h1 h2]

/-- C1 witness: the amended theorem applied to the initialized PF0
configuration with requested mode 1: the diagnostic log records the
unsupported-mode report and the trace records exactly the lock and commit
writes. -/
theorem claim_C1_witness :
    (Port_SetPinMode gPF0 0 1 st0).2.det =
      [(PORT_MODULE_ID, PORT_INSTANCE_ID, PORT_SET_PIN_MODE_SID,
        PORT_E_PARAM_INVALID_MODE)] ∧
    (Port_SetPinMode gPF0 0 1 st0).2.trace =
      [Ev.lock 5 UNLOCK_KEY, Ev.commit 5 0] ∧
    (∀ q r, r ≠ Reg.LOCK → r ≠ Reg.CR →
      (Port_SetPinMode gPF0 0 1 st0).2.regs q r = st0.regs q r) := by
  simpa using claim_C1 gPF0 cfgPF0 st0 0 1 (by decide) rfl (by decide)
    (by decide) (by decide) (by decide)

/-- C2 (amended): during Port_Init, an entry whose portIndex is outside
{0..5} reports PORT_E_PARAM_PIN, leaves every GPIO port register unchanged,
and the loop still processes all remaining entries; however the entry does
contribute a clock-gate register write for its out-of-range port index
whenever that bit of the ports-enabled mask is still clear, because the
clock-enable block precedes the portIndex validation. -/
theorem claim_C2 (e : Port_ConfigChannel) (st : MachState) (m : Nat)
    (h : 6 ≤ e.Port_Num) :
    (∀ q r, (Port_Init_entryBody e (st, m)).1.regs q r = st.regs q r) ∧
    (Port_Init_entryBody e (st, m)).1.det = st.det ++
      [(PORT_MODULE_ID, PORT_INSTANCE_ID, PORT_INIT_SID, PORT_E_PARAM_PIN)] ∧
    (Port_Init_entryBody e (st, m)).1.trace = st.trace ++
      (if m &&& (1 <<< e.Port_Num) = 0 then [Ev.rcgc e.Port_Num] else []) ∧
    (∀ es sm, Port_Init_pass (e :: es) sm = Port_Init_pass es
      (Port_Init_entryBody e sm)) := by
  have h6 : ¬ e.Port_Num < 6 := by omega
  refine ⟨fun q r => ?_, ?_, ?_, fun es sm => rfl⟩ <;>
    simp only [Port_Init_entryBody, if_neg h6] <;>
      split_ifs <;>
        simp [Det_ReportError_regs, Det_ReportError_det, Det_ReportError_trace,
          rcgcWrite_regs, rcgcWrite_det, rcgcWrite_trace]

/-- C2 witness: the amended theorem applied to the out-of-range entry with
portIndex 6 on the all-zero state and an empty ports-enabled mask. -/
theorem claim_C2_witness :
    (∀ q r, (Port_Init_entryBody
      { Port_Num := 6, Ch_Num := 0, Mode := 0, Direction := 0
        InitialValue := 0, Direction_Changeable := false
        Mode_Changeable := false, Resistor := 0 } (st0, 0)).1.regs q r =
      st0.regs q r) ∧
    (Port_Init_entryBody
      { Port_Num := 6, Ch_Num := 0, Mode := 0, Direction := 0
        InitialValue := 0, Direction_Changeable := false
        Mode_Changeable := false, Resistor := 0 } (st0, 0)).1.det =
      [(PORT_MODULE_ID, PORT_INSTANCE_ID, PORT_INIT_SID, PORT_E_PARAM_PIN)] ∧
    (Port_Init_entryBody
      { Port_Num := 6, Ch_Num := 0, Mode := 0, Direction := 0
        InitialValue := 0, Direction_Changeable := false
        Mode_Changeable := false, Resistor := 0 } (st0, 0)).1.trace =
      [Ev.rcgc 6] := by
  have h := claim_C2
    { Port_Num := 6, Ch_Num := 0, Mode := 0, Direction := 0
      InitialValue := 0, Direction_Changeable := false
      Mode_Changeable := false, Resistor := 0 } st0 0 (by decide)
  exact ⟨h.1, by simpa using h.2.1, by simpa using h.2.2.1⟩

theorem configurePin_DIR_in (e : Port_ConfigChannel) (st : MachState)
    (hdir : e.Direction ≠ PORT_PIN_OUT) (hch : e.Ch_Num < 32) :
    ((Port_Init_configurePin e st).regs e.Port_Num Reg.DIR).testBit e.Ch_Num
      = false := by
  simp only [Port_Init_configurePin, Port_Init_direction, if_neg hdir]
  split_ifs with h1 h2 h3 <;>
    simp [Port_modeDio, denSet, pctlClear, afselClear, amselClear,
      pdrClear, pdrSet, purClear, purSet, dirClear, Det_ReportError_regs,
      updReg_regs, testBit_clearBit_self _ hch]

theorem configurePin_DATA_in (e : Port_ConfigChannel) (st : MachState)
    (hdir : e.Direction ≠ PORT_PIN_OUT) (q : Nat) :
    (Port_Init_configurePin e st).regs q Reg.DATA = st.regs q Reg.DATA := by
  simp only [Port_Init_configurePin, Port_Init_direction, if_neg hdir]
  split_ifs with h1 h2 h3 <;>
    simp [Port_modeDio, denSet, pctlClear, afselClear, amselClear,
      pdrClear, pdrSet, purClear, purSet, dirClear, Det_ReportError_regs,
      updReg_regs, unlockCommit_regs_of_ne]

theorem configurePin_pull_up (e : Port_ConfigChannel) (st : MachState)
    (hdir : e.Direction ≠ PORT_PIN_OUT) (hr : e.Resistor = PULL_UP)
    (hch : e.Ch_Num < 32) :
    ((Port_Init_configurePin e st).regs e.Port_Num Reg.PUR).testBit e.Ch_Num
      = true ∧
    ((Port_Init_configurePin e st).regs e.Port_Num Reg.PDR).testBit e.Ch_Num
      = false := by
  simp only [Port_Init_configurePin, Port_Init_direction, if_neg hdir,
    if_pos hr]
  split_ifs with h1 <;>
    constructor <;>
      simp [Port_modeDio, denSet, pctlClear, afselClear, amselClear,
        pdrClear, purSet, dirClear, Det_ReportError_regs, updReg_regs,
        testBit_clearBit_self _ hch, testBit_setBit_self]

theorem configurePin_pull_down (e : Port_ConfigChannel) (st : MachState)
    (hdir : e.Direction ≠ PORT_PIN_OUT) (hr : e.Resistor = PULL_DOWN)
    (hch : e.Ch_Num < 32) :
    ((Port_Init_configurePin e st).regs e.Port_Num Reg.PDR).testBit e.Ch_Num
      = true ∧
    ((Port_Init_configurePin e st).regs e.Port_Num Reg.PUR).testBit e.Ch_Num
      = false := by
  have hr1 : ¬ e.Resistor = PULL_UP := by rw [hr]; decide
  simp only [Port_Init_configurePin, Port_Init_direction, if_neg hdir,
    if_neg hr1, if_pos hr]
  split_ifs with h1 <;>
    constructor <;>
      simp [Port_modeDio, denSet, pctlClear, afselClear, amselClear,
        purClear, pdrSet, dirClear, Det_ReportError_regs, updReg_regs,
        testBit_clearBit_self _ hch, testBit_setBit_self]

theorem configurePin_pull_off (e : Port_ConfigChannel) (st : MachState)
    (hdir : e.Direction ≠ PORT_PIN_OUT) (hr1 : e.Resistor ≠ PULL_UP)
    (hr2 : e.Resistor ≠ PULL_DOWN) (q : Nat) :
    (Port_Init_configurePin e st).regs q Reg.PUR = st.regs q Reg.PUR ∧
    (Port_Init_configurePin e st).regs q Reg.PDR = st.regs q Reg.PDR := by
  simp only [Port_Init_configurePin, Port_Init_direction, if_neg hdir,
    if_neg hr1, if_neg hr2]
  split_ifs with h1 <;>
    constructor <;>
      simp [Port_modeDio, denSet, pctlClear, afselClear, amselClear,
        dirClear, Det_ReportError_regs, updReg_regs, unlockCommit_regs_of_ne]

/-- C4 (amended): during Port_Init, an entry with a valid port whose
direction is IN (or any non-OUT value) and whose resistor is OFF (neither
PULL_UP nor PULL_DOWN) gets its direction bit cleared, while both the
pull-up and the pull-down registers are left completely untouched: the OFF
branch of the resistor programming does nothing, it does not clear the two
pull bits. -/
theorem claim_C4 (e : Port_ConfigChannel) (st : MachState) (m : Nat)
    (h6 : e.Port_Num < 6) (hdir : e.Direction ≠ PORT_PIN_OUT)
    (hr1 : e.Resistor ≠ PULL_UP) (hr2 : e.Resistor ≠ PULL_DOWN)
    (hch : e.Ch_Num < 8) :
    ((Port_Init_entryBody e (st, m)).1.regs e.Port_Num Reg.DIR).testBit
      e.Ch_Num = false ∧
    (∀ q, (Port_Init_entryBody e (st, m)).1.regs q Reg.PUR =
      st.regs q Reg.PUR) ∧
    (∀ q, (Port_Init_entryBody e (st, m)).1.regs q Reg.PDR =
      st.regs q Reg.PDR) := by
  have hch32 : e.Ch_Num < 32 := by omega
  simp only [Port_Init_entryBody, if_pos h6]
  refine ⟨?_, fun q => ?_, fun q => ?_⟩
  · split_ifs with hm
    · exact configurePin_DIR_in e _ hdir hch32
    · exact configurePin_DIR_in e _ hdir hch32
  · split_ifs with hm
    · rw [(configurePin_pull_off e _ hdir hr1 hr2 q).1, rcgcWrite_regs]
    · exact (configurePin_pull_off e _ hdir hr1 hr2 q).1
  · split_ifs with hm
    · rw [(configurePin_pull_off e _ hdir hr1 hr2 q).2, rcgcWrite_regs]
    · exact (configurePin_pull_off e _ hdir hr1 hr2 q).2

/-- C4 witness: the amended theorem applied to the input-with-OFF entry of
cfgOff on the state whose pull-up registers read 1. -/
theorem claim_C4_witness :
    ((Port_Init_entryBody
      { Port_Num := 0, Ch_Num := 0, Mode := 0, Direction := 0
        InitialValue := 0, Direction_Changeable := false
        Mode_Changeable := false, Resistor := 0 } (stPur1, 0)).1.regs 0
      Reg.DIR).testBit 0 = false ∧
    (∀ q, (Port_Init_entryBody
      { Port_Num := 0, Ch_Num := 0, Mode := 0, Direction := 0
        InitialValue := 0, Direction_Changeable := false
        Mode_Changeable := false, Resistor := 0 } (stPur1, 0)).1.regs q
      Reg.PUR = stPur1.regs q Reg.PUR) ∧
    (∀ q, (Port_Init_entryBody
      { Port_Num := 0, Ch_Num := 0, Mode := 0, Direction := 0
        InitialValue := 0, Direction_Changeable := false
        Mode_Changeable := false, Resistor := 0 } (stPur1, 0)).1.regs q
      Reg.PDR = stPur1.regs q Reg.PDR) :=
  claim_C4 _ stPur1 0 (by decide) (by decide) (by decide) (by decide)
    (by decide)

/-- A one-entry table: input pin with pull-up on port F channel 4, direction
and mode changeable. -/
def cfgIn : Port_ConfigType :=
  { Pins := [{ Port_Num := 5, Ch_Num := 4, Mode := 0, Direction := 0
               InitialValue := 0, Direction_Changeable := true
               Mode_Changeable := true, Resistor := 1 }] }

/-- Globals of an engine initialized with cfgIn. -/
def gIn : PortGlobals :=
  { Port_Status := PORT_INITIALIZED, Port_ConfigPtr := some cfgIn }

/-- C9: any direction value other than PORT_PIN_OUT is treated as input.
In Port_setPinDirection (guards passed, valid port) the direction bit is
cleared for every non-OUT direction argument, in-range PORT_PIN_IN or not;
in Port_Init, an entry whose Direction field is not OUT takes the input
path: direction bit cleared, data registers untouched, and the pull
resistor programmed from the Resistor field (pull-up set and pull-down
cleared for PULL_UP, the reverse for PULL_DOWN). -/
theorem claim_C9 :
    (∀ (g : PortGlobals) (cfg : Port_ConfigType) (st : MachState)
      (Pin Direction : Nat),
      g.Port_Status ≠ PORT_NOT_INITIALIZED → g.Port_ConfigPtr = some cfg →
      Pin < cfg.Pins.length →
      (cfg.Pins.getD Pin defaultChannel).Direction_Changeable = true →
      (cfg.Pins.getD Pin defaultChannel).Port_Num < 6 →
      (cfg.Pins.getD Pin defaultChannel).Ch_Num < 8 →
      Direction ≠ PORT_PIN_OUT →
      ((Port_setPinDirection g Pin Direction st).2.regs
        (cfg.Pins.getD Pin defaultChannel).Port_Num Reg.DIR).testBit
        (cfg.Pins.getD Pin defaultChannel).Ch_Num = false) ∧
    (∀ (e : Port_ConfigChannel) (st : MachState) (m : Nat),
      e.Port_Num < 6 → e.Ch_Num < 8 → e.Direction ≠ PORT_PIN_OUT →
      ((Port_Init_entryBody e (st, m)).1.regs e.Port_Num Reg.DIR).testBit
        e.Ch_Num = false ∧
      (∀ q, (Port_Init_entryBody e (st, m)).1.regs q Reg.DATA =
        st.regs q Reg.DATA) ∧
      (e.Resistor = PULL_UP →
        ((Port_Init_entryBody e (st, m)).1.regs e.Port_Num Reg.PUR).testBit
          e.Ch_Num = true ∧
        ((Port_Init_entryBody e (st, m)).1.regs e.Port_Num Reg.PDR).testBit
          e.Ch_Num = false) ∧
      (e.Resistor = PULL_DOWN →
        ((Port_Init_entryBody e (st, m)).1.regs e.Port_Num Reg.PDR).testBit
          e.Ch_Num = true ∧
        ((Port_Init_entryBody e (st, m)).1.regs e.Port_Num Reg.PUR).testBit
          e.Ch_Num = false)) := by
  constructor
  · intro g cfg st Pin Direction hs hcfg hp hdc hv hch hdirne
    have hg : getCfg g = cfg := getCfg_some hcfg
    have hlen : ¬ cfg.Pins.length ≤ Pin := by omega
    have hdcf : ¬ (cfg.Pins.getD Pin defaultChannel).Direction_Changeable
        = false := by rw [hdc]; simp
    have hch32 : (cfg.Pins.getD Pin defaultChannel).Ch_Num < 32 := by omega
    simp only [Port_setPinDirection, hg, if_neg hs, if_neg hlen, if_neg hdcf,
      if_pos hv, if_neg hdirne]
    simp [dirClear, updReg_regs]
    exact testBit_clearBit_self _ (by simpa using hch32)
  · intro e st m h6 hch hdir
    have hch32 : e.Ch_Num < 32 := by omega
    simp only [Port_Init_entryBody, if_pos h6]
    refine ⟨?_, fun q => ?_, fun hr => ?_, fun hr => ?_⟩
    · split_ifs with hm <;> exact configurePin_DIR_in e _ hdir hch32
    · split_ifs with hm
      · rw [configurePin_DATA_in e _ hdir q, rcgcWrite_regs]
      · exact configurePin_DATA_in e _ hdir q
    · split_ifs with hm <;> exact configurePin_pull_up e _ hdir hr hch32
    · split_ifs with hm <;> exact configurePin_pull_down e _ hdir hr hch32

/-- C9 witness: the claim applied to the initialized cfgIn table: a
direction-change request with the out-of-range direction value 5 clears the
direction bit of PF4, and the Port_Init entry body on the same entry (IN
with pull-up) clears the direction bit, sets pull-up, clears pull-down and
leaves the data registers alone. -/
theorem claim_C9_witness :
    ((Port_setPinDirection gIn 0 5 st0).2.regs 5 Reg.DIR).testBit 4 = false ∧
    ((Port_Init_entryBody
        { Port_Num := 5, Ch_Num := 4, Mode := 0, Direction := 0
          InitialValue := 0, Direction_Changeable := true
          Mode_Changeable := true, Resistor := 1 } (st0, 0)).1.regs 5
        Reg.DIR).testBit 4 = false ∧
    ((Port_Init_entryBody
        { Port_Num := 5, Ch_Num := 4, Mode := 0, Direction := 0
          InitialValue := 0, Direction_Changeable := true
          Mode_Changeable := true, Resistor := 1 } (st0, 0)).1.regs 5
        Reg.PUR).testBit 4 = true := by
  refine ⟨claim_C9.1 gIn cfgIn st0 0 5 (by decide) rfl (by decide) (by decide)
    (by decide) (by decide) (by decide), ?_, ?_⟩
  · exact (claim_C9.2 _ st0 0 (by decide) (by decide) (by decide)).1
  · exact ((claim_C9.2 _ st0 0 (by decide) (by decide) (by decide)).2.2.1
      (by decide)).1

/-- The out-of-range entry used as a fixture: portIndex 6. -/
def eBadPort : Port_ConfigChannel :=
  { Port_Num := 6, Ch_Num := 0, Mode := 0, Direction := 0, InitialValue := 0
    Direction_Changeable := false, Mode_Changeable := false, Resistor := 0 }

/-- A one-entry table with portIndex 7 and both runtime-change flags true. -/
def cfgBad7 : Port_ConfigType :=
  { Pins := [{ Port_Num := 7, Ch_Num := 2, Mode := 0, Direction := 1
               InitialValue := 0, Direction_Changeable := true
               Mode_Changeable := true, Resistor := 0 }] }

/-- Globals of an engine whose stored table is cfgBad7. -/
def gBad7 : PortGlobals :=
  { Port_Status := PORT_INITIALIZED, Port_ConfigPtr := some cfgBad7 }

/-- C3 (amended): every entry point validates portIndex against {0..5}
through the base-address switch and rejects or skips the entry with
PORT_E_PARAM_PIN before performing any GPIO port-register access (Port_Init
nonetheless performs the clock-gate write before this validation), and the
two single-pin operations validate the table index; channelIndex, however,
is never validated anywhere. -/
theorem claim_C3 :
    (∀ (e : Port_ConfigChannel) (st : MachState) (m : Nat), 6 ≤ e.Port_Num →
      (∀ q r, (Port_Init_entryBody e (st, m)).1.regs q r = st.regs q r) ∧
      (Port_Init_entryBody e (st, m)).1.det = st.det ++
        [(PORT_MODULE_ID, PORT_INSTANCE_ID, PORT_INIT_SID,
          PORT_E_PARAM_PIN)]) ∧
    (∀ (e : Port_ConfigChannel) (st : MachState), 6 ≤ e.Port_Num →
      e.Direction_Changeable = false →
      Port_Refresh_entryBody e st = Det_ReportError st PORT_MODULE_ID
        PORT_INSTANCE_ID PORT_REFRESH_PIN_DIRECTION_SID PORT_E_PARAM_PIN) ∧
    (∀ (g : PortGlobals) (cfg : Port_ConfigType) (st : MachState)
      (Pin Direction : Nat),
      g.Port_Status ≠ PORT_NOT_INITIALIZED → g.Port_ConfigPtr = some cfg →
      Pin < cfg.Pins.length →
      (cfg.Pins.getD Pin defaultChannel).Direction_Changeable = true →
      6 ≤ (cfg.Pins.getD Pin defaultChannel).Port_Num →
      Port_setPinDirection g Pin Direction st = (g, Det_ReportError st
        PORT_MODULE_ID PORT_INSTANCE_ID PORT_SET_PIN_DIRECTION_SID
        PORT_E_PARAM_PIN)) ∧
    (∀ (g : PortGlobals) (cfg : Port_ConfigType) (st : MachState)
      (Pin Mode : Nat),
      g.Port_Status ≠ PORT_NOT_INITIALIZED → g.Port_ConfigPtr = some cfg →
      Pin < cfg.Pins.length →
      (cfg.Pins.getD Pin defaultChannel).Mode_Changeable = true →
      6 ≤ (cfg.Pins.getD Pin defaultChannel).Port_Num →
      Port_SetPinMode g Pin Mode st = (g, Det_ReportError st PORT_MODULE_ID
        PORT_INSTANCE_ID PORT_SET_PIN_MODE_SID PORT_E_PARAM_PIN)) := by
  refine ⟨fun e st m h => ?_, fun e st h hdc => ?_,
    fun g cfg st Pin Direction hs hcfg hp hdc hport => ?_,
    fun g cfg st Pin Mode hs hcfg hp hmc hport => ?_⟩
  · have h6 : ¬ e.Port_Num < 6 := by omega
    constructor <;>
      simp only [Port_Init_entryBody, if_neg h6] <;>
        split_ifs <;>
          simp [Det_ReportError_regs, Det_ReportError_det, rcgcWrite_regs,
            rcgcWrite_det]
  · have h6 : ¬ e.Port_Num < 6 := by omega
    simp only [Port_Refresh_entryBody, if_pos hdc, if_neg h6]
  · have hg : getCfg g = cfg := getCfg_some hcfg
    have hlen : ¬ cfg.Pins.length ≤ Pin := by omega
    have hdcf : ¬ (cfg.Pins.getD Pin defaultChannel).Direction_Changeable
        = false := by rw [hdc]; simp
    have h6 : ¬ (cfg.Pins.getD Pin defaultChannel).Port_Num < 6 := by omega
    simp only [Port_setPinDirection, hg, if_neg hs, if_neg hlen, if_neg hdcf,
      if_neg h6]
  · have hg : getCfg g = cfg := getCfg_some hcfg
    have hlen : ¬ cfg.Pins.length ≤ Pin := by omega
    have hmcf : ¬ (cfg.Pins.getD Pin defaultChannel).Mode_Changeable
        = false := by rw [hmc]; simp
    have h6 : ¬ (cfg.Pins.getD Pin defaultChannel).Port_Num < 6 := by omega
    simp only [Port_SetPinMode, hg, if_neg hs, if_neg hlen, if_neg hmcf,
      if_neg h6]

/-- C3 witness: the amended theorem applied to the portIndex-6 entry (for
the two table passes) and to the initialized cfgBad7 table (for the two
single-pin operations). -/
theorem claim_C3_witness :
    (∀ q r, (Port_Init_entryBody eBadPort (st0, 0)).1.regs q r =
      st0.regs q r) ∧
    Port_Refresh_entryBody eBadPort st0 = Det_ReportError st0 PORT_MODULE_ID
      PORT_INSTANCE_ID PORT_REFRESH_PIN_DIRECTION_SID PORT_E_PARAM_PIN ∧
    Port_setPinDirection gBad7 0 1 st0 = (gBad7, Det_ReportError st0
      PORT_MODULE_ID PORT_INSTANCE_ID PORT_SET_PIN_DIRECTION_SID
      PORT_E_PARAM_PIN) ∧
    Port_SetPinMode gBad7 0 0 st0 = (gBad7, Det_ReportError st0
      PORT_MODULE_ID PORT_INSTANCE_ID PORT_SET_PIN_MODE_SID
      PORT_E_PARAM_PIN) :=
  ⟨(claim_C3.1 eBadPort st0 0 (by decide)).1,
   claim_C3.2.1 eBadPort st0 (by decide) (by decide),
   claim_C3.2.2.1 gBad7 cfgBad7 st0 0 1 (by decide) rfl (by decide)
     (by decide) (by decide),
   claim_C3.2.2.2 gBad7 cfgBad7 st0 0 0 (by decide) rfl (by decide)
     (by decide) (by decide)⟩

theorem unlockCommit_regs_of_port_ne (p c q : Nat) (r : Reg) (st : MachState)
    (h : q ≠ p) : (Port_unlockCommit p c st).regs q r = st.regs q r := by
  unfold Port_unlockCommit
  split
  · simp [commitSet, lockWrite, updReg_regs, h]
  · rfl

theorem refresh_entry_DIR_preserve (f : Port_ConfigChannel) (st : MachState)
    (q m : Nat) (hm : m < 32)
    (h : f.Direction_Changeable = true ∨ (f.Port_Num, f.Ch_Num) ≠ (q, m)) :
    ((Port_Refresh_entryBody f st).regs q Reg.DIR).testBit m
      = (st.regs q Reg.DIR).testBit m := by
  simp only [Port_Refresh_entryBody]
  by_cases hdc : f.Direction_Changeable = false
  case neg => rw [if_neg hdc]
  case pos =>
    rw [if_pos hdc]
    have h' : (f.Port_Num, f.Ch_Num) ≠ (q, m) := by
      rcases h with h | h
      · rw [hdc] at h; cases h
      · exact h
    by_cases h6 : f.Port_Num < 6
    case neg => rw [if_neg h6, Det_ReportError_regs]
    case pos =>
      rw [if_pos h6]
      by_cases hq : q = f.Port_Num
      · subst hq
        have hcm : m ≠ f.Ch_Num := fun he => h' (by rw [he])
        by_cases hd : f.Direction = PORT_PIN_OUT
        · rw [if_pos hd]
          simp [dirSet, updReg_regs, testBit_setBit_of_ne _ hcm,
            unlockCommit_regs_of_ne]
        · rw [if_neg hd]
          simp [dirClear, updReg_regs, testBit_clearBit_of_ne _ hm hcm,
            unlockCommit_regs_of_ne]
      · by_cases hd : f.Direction = PORT_PIN_OUT
        · rw [if_pos hd]
          simp only [dirSet, updReg_regs]
          rw [if_neg (fun hc => hq hc.1),
            unlockCommit_regs_of_port_ne _ _ _ _ _ hq]
        · rw [if_neg hd]
          simp only [dirClear, updReg_regs]
          rw [if_neg (fun hc => hq hc.1),
            unlockCommit_regs_of_port_ne _ _ _ _ _ hq]

theorem refresh_pass_DIR_preserve (pins : List Port_ConfigChannel)
    (st : MachState) (q m : Nat) (hm : m < 32)
    (h : ∀ f ∈ pins, f.Direction_Changeable = true ∨
      (f.Port_Num, f.Ch_Num) ≠ (q, m)) :
    ((Port_Refresh_pass pins st).regs q Reg.DIR).testBit m
      = (st.regs q Reg.DIR).testBit m := by
  induction pins generalizing st with
  | nil => rfl
  | cons f rest ih =>
      rw [Port_Refresh_pass]
      rw [ih _ (fun x hx => h x (List.mem_cons_of_mem f hx))]
      exact refresh_entry_DIR_preserve f st q m hm
        (h f (List.mem_cons_self f rest))

theorem refresh_entry_apply (e : Port_ConfigChannel) (st : MachState)
    (h6 : e.Port_Num < 6) (hdc : e.Direction_Changeable = false)
    (hch : e.Ch_Num < 32) :
    ((Port_Refresh_entryBody e st).regs e.Port_Num Reg.DIR).testBit e.Ch_Num
      = decide (e.Direction = PORT_PIN_OUT) := by
  simp only [Port_Refresh_entryBody]
  rw [if_pos hdc, if_pos h6]
  by_cases hd : e.Direction = PORT_PIN_OUT
  · rw [if_pos hd]
    simp [dirSet, updReg_regs, testBit_setBit_self, hd]
  · rw [if_neg hd]
    simp [dirClear, updReg_regs, testBit_clearBit_self _ hch, hd]

theorem refresh_entry_other_port (f : Port_ConfigChannel) (st : MachState)
    (q : Nat) (r : Reg)
    (h : f.Direction_Changeable = true ∨ f.Port_Num ≠ q) :
    (Port_Refresh_entryBody f st).regs q r = st.regs q r := by
  simp only [Port_Refresh_entryBody]
  by_cases hdc : f.Direction_Changeable = false
  case neg => rw [if_neg hdc]
  case pos =>
    rw [if_pos hdc]
    have hq : q ≠ f.Port_Num := by
      rcases h with h | h
      · rw [hdc] at h; cases h
      · exact Ne.symm h
    by_cases h6 : f.Port_Num < 6
    case neg => rw [if_neg h6, Det_ReportError_regs]
    case pos =>
      rw [if_pos h6]
      by_cases hd : f.Direction = PORT_PIN_OUT
      · rw [if_pos hd]
        simp only [dirSet, updReg_regs]
        rw [if_neg (fun hc => hq hc.1),
          unlockCommit_regs_of_port_ne _ _ _ _ _ hq]
      · rw [if_neg hd]
        simp only [dirClear, updReg_regs]
        rw [if_neg (fun hc => hq hc.1),
          unlockCommit_regs_of_port_ne _ _ _ _ _ hq]

theorem refresh_pass_other_port (pins : List Port_ConfigChannel)
    (st : MachState) (q : Nat) (r : Reg)
    (h : ∀ f ∈ pins, f.Direction_Changeable = true ∨ f.Port_Num ≠ q) :
    (Port_Refresh_pass pins st).regs q r = st.regs q r := by
  induction pins generalizing st with
  | nil => rfl
  | cons f rest ih =>
      rw [Port_Refresh_pass]
      rw [ih _ (fun x hx => h x (List.mem_cons_of_mem f hx))]
      exact refresh_entry_other_port f st q r
        (h f (List.mem_cons_self f rest))

theorem refresh_pass_apply (pins : List Port_ConfigChannel) (st : MachState)
    (e : Port_ConfigChannel) (he : e ∈ pins)
    (hdist : pins.Pairwise (fun a b =>
      (a.Port_Num, a.Ch_Num) ≠ (b.Port_Num, b.Ch_Num)))
    (hdc : e.Direction_Changeable = false) (h6 : e.Port_Num < 6)
    (hch : e.Ch_Num < 32) :
    ((Port_Refresh_pass pins st).regs e.Port_Num Reg.DIR).testBit e.Ch_Num
      = decide (e.Direction = PORT_PIN_OUT) := by
  induction pins generalizing st with
  | nil => cases he
  | cons f rest ih =>
      rw [Port_Refresh_pass]
      rcases List.mem_cons.mp he with hef | her
      · subst hef
        rw [refresh_pass_DIR_preserve rest _ e.Port_Num e.Ch_Num hch
          (fun x hx => Or.inr (Ne.symm ((List.pairwise_cons.mp hdist).1 x hx)))]
        exact refresh_entry_apply e st h6 hdc hch
      · exact ih _ her (List.pairwise_cons.mp hdist).2

/-- C5: with the engine INITIALIZED on a stored table whose entries occupy
pairwise distinct (port, channel) slots, Port_RefreshPortDirection, run from
an arbitrary machine state (so after any external tampering with the
direction registers), restores the direction bit of every entry whose
directionChangeable flag is false and has a valid port and channel to its
configured build-time value (set for OUT, cleared otherwise), leaves every
register of every port that hosts only changeable entries completely
unchanged, and leaves the current direction bit of every changeable entry
untouched, including changeable entries that share their port with fixed
entries. -/
theorem claim_C5 (g : PortGlobals) (cfg : Port_ConfigType) (st : MachState)
    (hs : g.Port_Status = PORT_INITIALIZED)
    (hcfg : g.Port_ConfigPtr = some cfg)
    (hdist : cfg.Pins.Pairwise (fun a b =>
      (a.Port_Num, a.Ch_Num) ≠ (b.Port_Num, b.Ch_Num))) :
    (∀ e ∈ cfg.Pins, e.Direction_Changeable = false → e.Port_Num < 6 →
      e.Ch_Num < 8 →
      ((Port_RefreshPortDirection g st).2.regs e.Port_Num Reg.DIR).testBit
        e.Ch_Num = decide (e.Direction = PORT_PIN_OUT)) ∧
    (∀ q, (∀ f ∈ cfg.Pins, f.Direction_Changeable = true ∨ f.Port_Num ≠ q) →
      ∀ r, (Port_RefreshPortDirection g st).2.regs q r = st.regs q r) ∧
    (∀ e ∈ cfg.Pins, e.Direction_Changeable = true → e.Ch_Num < 8 →
      ((Port_RefreshPortDirection g st).2.regs e.Port_Num Reg.DIR).testBit
        e.Ch_Num = (st.regs e.Port_Num Reg.DIR).testBit e.Ch_Num) := by
  have hg : getCfg g = cfg := getCfg_some hcfg
  have hs0 : ¬ g.Port_Status = PORT_NOT_INITIALIZED := by rw [hs]; decide
  simp only [Port_RefreshPortDirection, if_neg hs0, hg]
  refine ⟨fun e he hdc h6 hch =>
      refresh_pass_apply _ _ _ he hdist hdc h6 (by omega),
    fun q hq r => refresh_pass_other_port _ _ _ _ hq,
    fun e he hdc hch => ?_⟩
  apply refresh_pass_DIR_preserve cfg.Pins st e.Port_Num e.Ch_Num (by omega)
  intro f hf
  by_cases hfe : f = e
  · subst hfe
    exact Or.inl hdc
  · exact Or.inr
      (List.Pairwise.forall (fun a b hab => Ne.symm hab) hdist hf he hfe)

/-- The two-entry scenario table of the spec: PF1 output (changeable
direction) and PF4 input with pull-up (fixed direction). -/
def cfgScenario : Port_ConfigType :=
  { Pins := [
      { Port_Num := 5, Ch_Num := 1, Mode := 0, Direction := 1
        InitialValue := 1, Direction_Changeable := true
        Mode_Changeable := true, Resistor := 0 },
      { Port_Num := 5, Ch_Num := 4, Mode := 0, Direction := 0
        InitialValue := 0, Direction_Changeable := false
        Mode_Changeable := true, Resistor := 1 }] }

/-- Globals of an engine initialized with cfgScenario. -/
def gScenario : PortGlobals :=
  { Port_Status := PORT_INITIALIZED, Port_ConfigPtr := some cfgScenario }

/-- A fully tampered machine state: every GPIO register reads all-ones. -/
def stTamper : MachState :=
  { rcgc := 0, regs := fun _ _ => mask32, trace := [], det := [] }

/-- C5 witness: on the spec scenario table, after tampering every register
to all-ones, the refresh restores the fixed input pin PF4 direction bit to
0, leaves the direction bit of the changeable pin PF1 — which shares port F
with the fixed PF4 — exactly as tampered, and does not touch port A, which
hosts no fixed entry. -/
theorem claim_C5_witness :
    cfgScenario.Pins.Pairwise (fun a b =>
      (a.Port_Num, a.Ch_Num) ≠ (b.Port_Num, b.Ch_Num)) ∧
    ((Port_RefreshPortDirection gScenario stTamper).2.regs 5
      Reg.DIR).testBit 4 = false ∧
    ((Port_RefreshPortDirection gScenario stTamper).2.regs 5
      Reg.DIR).testBit 1 = (stTamper.regs 5 Reg.DIR).testBit 1 ∧
    (∀ r, (Port_RefreshPortDirection gScenario stTamper).2.regs 0 r =
      stTamper.regs 0 r) := by
  have h := claim_C5 gScenario cfgScenario stTamper rfl rfl (by decide)
  exact ⟨by decide,
    h.1 { Port_Num := 5, Ch_Num := 4, Mode := 0, Direction := 0
          InitialValue := 0, Direction_Changeable := false
          Mode_Changeable := true, Resistor := 1 }
      (by decide) (by decide) (by decide) (by decide),
    h.2.2 { Port_Num := 5, Ch_Num := 1, Mode := 0, Direction := 1
            InitialValue := 1, Direction_Changeable := true
            Mode_Changeable := true, Resistor := 0 }
      (by decide) (by decide) (by decide),
    fun r => h.2.1 0 (by decide) r⟩

/-! Trace ordering: the lock/commit-before-direction-write discipline. -/

/-- The event ev is a direction-register write that touches the direction
bit of one of the two hardware-locked pins (port 3 channel 7 or port 5
channel 0). -/
def TouchD (ev : Ev) (p c : Nat) : Prop :=
  ((p = 3 ∧ c = 7) ∨ (p = 5 ∧ c = 0)) ∧ ∃ b, ev = Ev.dir p c b

/-- Every direction-register write touching a hardware-locked pin is
strictly preceded in the trace by a write of the unlock key to that port
lock register and by a commit-bit write for that channel. -/
def dirGuarded (tr : List Ev) : Prop :=
  ∀ p c i, i < tr.length → TouchD (tr.getD i (Ev.rcgc 0)) p c →
    Ev.lock p UNLOCK_KEY ∈ tr.take i ∧ Ev.commit p c ∈ tr.take i

/-- Both guard registers of pin (p, c) have already been written in the
trace of st. -/
def LockedIn (st : MachState) (p c : Nat) : Prop :=
  Ev.lock p UNLOCK_KEY ∈ st.trace ∧ Ev.commit p c ∈ st.trace

theorem dirGuarded_nil : dirGuarded [] := by
  intro p c i hi
  simp at hi

theorem dirGuarded_snoc (tr : List Ev) (ev : Ev) (h : dirGuarded tr)
    (hev : ∀ p c, TouchD ev p c →
      Ev.lock p UNLOCK_KEY ∈ tr ∧ Ev.commit p c ∈ tr) :
    dirGuarded (tr ++ [ev]) := by
  intro p c i hi ht
  have hi' : i < tr.length + 1 := by simpa using hi
  by_cases hlt : i < tr.length
  · rw [List.getD_append _ _ _ _ hlt] at ht
    have hm := h p c i hlt ht
    rwa [List.take_append_of_le_length (le_of_lt hlt)]
  · have hieq : i = tr.length := by omega
    subst hieq
    rw [List.getD_append_right _ _ _ _ (le_refl _)] at ht
    simp at ht
    rw [List.take_append_of_le_length (le_refl _), List.take_length]
    exact hev p c ht
  
theorem not_TouchD {ev : Ev} (h : ∀ p c b, ev ≠ Ev.dir p c b) (q d : Nat) :
    ¬ TouchD ev q d := fun hh => h q d hh.2.choose hh.2.choose_spec

theorem dirGuarded_snoc_nontouch (tr : List Ev) (ev : Ev)
    (h : dirGuarded tr) (hne : ∀ p c b, ev ≠ Ev.dir p c b) :
    dirGuarded (tr ++ [ev]) :=
  dirGuarded_snoc tr ev h (fun q d ht => absurd ht (not_TouchD hne q d))

theorem Inv_dirWrite (st : MachState) (p c : Nat) (b : Bool)
    (h : dirGuarded st.trace)
    (hl : ((p = 3 ∧ c = 7) ∨ (p = 5 ∧ c = 0)) → LockedIn st p c) :
    dirGuarded (st.trace ++ [Ev.dir p c b]) := by
  apply dirGuarded_snoc _ _ h
  rintro q d ⟨hqd, b', hb⟩
  injection hb with h1 h2 h3
  subst h1
  subst h2
  exact hl hqd

theorem LockedIn_unlockCommit (p c : Nat) (st : MachState)
    (hl : (p = 3 ∧ c = 7) ∨ (p = 5 ∧ c = 0)) :
    LockedIn (Port_unlockCommit p c st) p c := by
  unfold Port_unlockCommit LockedIn
  rw [if_pos hl]
  constructor <;> simp [commitSet, lockWrite, updReg, List.mem_append]

theorem Inv_unlockCommit (p c : Nat) (st : MachState)
    (h : dirGuarded st.trace) :
    dirGuarded (Port_unlockCommit p c st).trace := by
  unfold Port_unlockCommit
  split
  · exact dirGuarded_snoc_nontouch _ _
      (dirGuarded_snoc_nontouch _ _ h (fun _ _ _ hh => Ev.noConfusion hh))
      (fun _ _ _ hh => Ev.noConfusion hh)
  · exact h

theorem Inv_modeDio (p c : Nat) (st : MachState) (h : dirGuarded st.trace) :
    dirGuarded (Port_modeDio p c st).trace :=
  dirGuarded_snoc_nontouch _ _
    (dirGuarded_snoc_nontouch _ _
      (dirGuarded_snoc_nontouch _ _
        (dirGuarded_snoc_nontouch _ _ h (fun _ _ _ hh => Ev.noConfusion hh))
        (fun _ _ _ hh => Ev.noConfusion hh))
      (fun _ _ _ hh => Ev.noConfusion hh))
    (fun _ _ _ hh => Ev.noConfusion hh)

theorem Inv_direction (e : Port_ConfigChannel) (st : MachState)
    (h : dirGuarded st.trace)
    (hl : ((e.Port_Num = 3 ∧ e.Ch_Num = 7) ∨ (e.Port_Num = 5 ∧ e.Ch_Num = 0))
      → LockedIn st e.Port_Num e.Ch_Num) :
    dirGuarded (Port_Init_direction e st).trace := by
  simp only [Port_Init_direction]
  by_cases hd : e.Direction = PORT_PIN_OUT
  · rw [if_pos hd]
    by_cases hi : e.InitialValue = STD_HIGH
    · rw [if_pos hi]
      exact dirGuarded_snoc_nontouch _ _
        (Inv_dirWrite st _ _ true h hl) (fun _ _ _ hh => Ev.noConfusion hh)
    · rw [if_neg hi]
      exact dirGuarded_snoc_nontouch _ _
        (Inv_dirWrite st _ _ true h hl) (fun _ _ _ hh => Ev.noConfusion hh)
  · rw [if_neg hd]
    by_cases hr1 : e.Resistor = PULL_UP
    · rw [if_pos hr1]
      exact dirGuarded_snoc_nontouch _ _
        (dirGuarded_snoc_nontouch _ _ (Inv_dirWrite st _ _ false h hl)
          (fun _ _ _ hh => Ev.noConfusion hh))
        (fun _ _ _ hh => Ev.noConfusion hh)
    · rw [if_neg hr1]
      by_cases hr2 : e.Resistor = PULL_DOWN
      · rw [if_pos hr2]
        exact dirGuarded_snoc_nontouch _ _
          (dirGuarded_snoc_nontouch _ _ (Inv_dirWrite st _ _ false h hl)
            (fun _ _ _ hh => Ev.noConfusion hh))
          (fun _ _ _ hh => Ev.noConfusion hh)
      · rw [if_neg hr2]
        exact Inv_dirWrite st _ _ false h hl

theorem Inv_configurePin (e : Port_ConfigChannel) (st : MachState)
    (h : dirGuarded st.trace) :
    dirGuarded (Port_Init_configurePin e st).trace := by
  simp only [Port_Init_configurePin]
  have h2 : dirGuarded (Port_Init_direction e
      (Port_unlockCommit e.Port_Num e.Ch_Num st)).trace :=
    Inv_direction e _ (Inv_unlockCommit _ _ _ h)
      (fun hl => LockedIn_unlockCommit _ _ _ hl)
  by_cases hm : e.Mode = PIN_MODE_DIO_VAL
  · rw [if_pos hm]
    exact Inv_modeDio _ _ _ h2
  · rw [if_neg hm]
    rw [Det_ReportError_trace]
    exact h2

theorem Inv_entryBody (e : Port_ConfigChannel) (sm : MachState × Nat)
    (h : dirGuarded sm.1.trace) :
    dirGuarded (Port_Init_entryBody e sm).1.trace := by
  simp only [Port_Init_entryBody]
  have h1 : dirGuarded (if sm.2 &&& (1 <<< e.Port_Num) = 0
      then rcgcWrite sm.1 e.Port_Num else sm.1).trace := by
    split_ifs with hmask
    · exact dirGuarded_snoc_nontouch _ _ h (fun _ _ _ hh => Ev.noConfusion hh)
    · exact h
  by_cases h6 : e.Port_Num < 6
  · rw [if_pos h6]
    exact Inv_configurePin _ _ h1
  · rw [if_neg h6]
    dsimp only
    rw [Det_ReportError_trace]
    exact h1

theorem Inv_pass (pins : List Port_ConfigChannel) (sm : MachState × Nat)
    (h : dirGuarded sm.1.trace) :
    dirGuarded (Port_Init_pass pins sm).1.trace := by
  induction pins generalizing sm with
  | nil => exact h
  | cons e rest ih =>
      rw [Port_Init_pass]
      exact ih _ (Inv_entryBody e sm h)

theorem Inv_refresh_entry (e : Port_ConfigChannel) (st : MachState)
    (h : dirGuarded st.trace) :
    dirGuarded (Port_Refresh_entryBody e st).trace := by
  simp only [Port_Refresh_entryBody]
  by_cases hdc : e.Direction_Changeable = false
  · rw [if_pos hdc]
    by_cases h6 : e.Port_Num < 6
    · rw [if_pos h6]
      have h1 := Inv_unlockCommit e.Port_Num e.Ch_Num st h
      have hlk := fun hl => LockedIn_unlockCommit e.Port_Num e.Ch_Num st hl
      by_cases hd : e.Direction = PORT_PIN_OUT
      · rw [if_pos hd]
        exact Inv_dirWrite _ _ _ true h1 hlk
      · rw [if_neg hd]
        exact Inv_dirWrite _ _ _ false h1 hlk
    · rw [if_neg h6, Det_ReportError_trace]
      exact h
  · rw [if_neg hdc]
    exact h

theorem Inv_refresh_pass (pins : List Port_ConfigChannel) (st : MachState)
    (h : dirGuarded st.trace) :
    dirGuarded (Port_Refresh_pass pins st).trace := by
  induction pins generalizing st with
  | nil => exact h
  | cons e rest ih =>
      rw [Port_Refresh_pass]
      exact ih _ (Inv_refresh_entry e st h)

theorem Inv_setPinDirection (g : PortGlobals) (Pin Direction : Nat)
    (st : MachState) (h : dirGuarded st.trace) :
    dirGuarded (Port_setPinDirection g Pin Direction st).2.trace := by
  simp only [Port_setPinDirection]
  by_cases h1 : g.Port_Status = PORT_NOT_INITIALIZED
  · rw [if_pos h1]; rw [Det_ReportError_trace]; exact h
  · rw [if_neg h1]
    by_cases h2 : (getCfg g).Pins.length ≤ Pin
    · rw [if_pos h2]; rw [Det_ReportError_trace]; exact h
    · rw [if_neg h2]
      by_cases h3 : ((getCfg g).Pins.getD Pin defaultChannel).Direction_Changeable = false
      · rw [if_pos h3]; rw [Det_ReportError_trace]; exact h
      · rw [if_neg h3]
        by_cases h4 : ((getCfg g).Pins.getD Pin defaultChannel).Port_Num < 6
        · rw [if_pos h4]
          have h5 := Inv_unlockCommit
            ((getCfg g).Pins.getD Pin defaultChannel).Port_Num
            ((getCfg g).Pins.getD Pin defaultChannel).Ch_Num st h
          have hlk := fun hl => LockedIn_unlockCommit
            ((getCfg g).Pins.getD Pin defaultChannel).Port_Num
            ((getCfg g).Pins.getD Pin defaultChannel).Ch_Num st hl
          by_cases h6 : Direction = PORT_PIN_OUT
          · rw [if_pos h6]
            exact Inv_dirWrite _ _ _ true h5 hlk
          · rw [if_neg h6]
            exact Inv_dirWrite _ _ _ false h5 hlk
        · rw [if_neg h4]
          rw [Det_ReportError_trace]
          exact h

/-- C6: starting from any register state, in each of Port_Init (on any
table), Port_setPinDirection (on any arguments) and
Port_RefreshPortDirection, the produced write trace is dirGuarded: every
write that modifies the direction bit of a hardware-locked pin (port 3
channel 7, or port 5 channel 0) is strictly preceded by a write of the
fixed unlock key 0x4C4F434B to that port lock register and by a
commit-enable bit write for that channel. -/
theorem claim_C6 (cfg : Port_ConfigType) (g : PortGlobals) (rc : Nat)
    (rg : Nat → Reg → Nat) (dt : List (Nat × Nat × Nat × Nat))
    (Pin Direction : Nat) :
    dirGuarded ((Port_Init (some cfg) g
      { rcgc := rc, regs := rg, trace := [], det := dt }).2.trace) ∧
    dirGuarded ((Port_setPinDirection g Pin Direction
      { rcgc := rc, regs := rg, trace := [], det := dt }).2.trace) ∧
    dirGuarded ((Port_RefreshPortDirection g
      { rcgc := rc, regs := rg, trace := [], det := dt }).2.trace) := by
  refine ⟨?_, ?_, ?_⟩
  · exact Inv_pass cfg.Pins _ dirGuarded_nil
  · exact Inv_setPinDirection g Pin Direction _ dirGuarded_nil
  · simp only [Port_RefreshPortDirection]
    by_cases h1 : g.Port_Status = PORT_NOT_INITIALIZED
    · rw [if_pos h1, Det_ReportError_trace]
      exact dirGuarded_nil
    · rw [if_neg h1]
      exact Inv_refresh_pass _ _ dirGuarded_nil
